import Mathlib

/-!
Shallow embedding of the stingy-vpn control loop (Recovery Controller,
DNS Reconciler, and the shared retry utility) as pure Lean functions.

External calls (SSM Parameter Store, EC2, the Cloudflare HTTP API) are
modelled by oracles: each handler takes a record of the responses the
outside world would return, and produces the invocation's outcome, the
ordered list of external side effects it performed, and (for the
Recovery Controller) the value held by the state store afterwards.
Thrown JavaScript values are modelled by `Thrown`: an `Error` with a
message, or the value `undefined`.
-/

/-- A JavaScript thrown value: an Error carrying a message, or `undefined`. -/
inductive Thrown where
  | err (msg : String)
  | undef
deriving DecidableEq, Repr

/-- Models `error instanceof Error ? error : new Error(String(error))`. -/
def asError : Thrown → Thrown
  | Thrown.err m => Thrown.err m
  | Thrown.undef => Thrown.err "undefined"

/-- `throw lastError` where `lastError : Error | undefined`. -/
def orUndefined : Option Thrown → Thrown
  | none => Thrown.undef
  | some e => e

/-- One external side effect performed by a handler. -/
inductive Effect where
  | ssmGet (name : String)
  | ssmPut (name value : String)
  | ec2RunInstances
  | ec2Describe (instanceId : String)
  | sleep (ms : Nat)
  | fetchPatch (url body : String)
deriving DecidableEq, Repr

/-- Occurrences of `DescribeInstances` in an effect trace. -/
def countDescribes (l : List Effect) : Nat :=
  l.countP fun e => match e with
    | Effect.ec2Describe _ => true
    | _ => false

/-- Occurrences of the DNS provider PATCH call in an effect trace. -/
def countFetches (l : List Effect) : Nat :=
  l.countP fun e => match e with
    | Effect.fetchPatch _ _ => true
    | _ => false

/-- The waits of an effect trace, in order, in milliseconds. -/
def sleepDelays (l : List Effect) : List Nat :=
  l.filterMap fun e => match e with
    | Effect.sleep ms => some ms
    | _ => none

/-- Loop body of `withRetry` (ddns-updater `index.ts`), recursing on the
number of attempts remaining.  `attempt` is the 1-based attempt counter of
the source loop; the `remaining = 0` case is the fall-through
`throw lastError` after the loop.  Returns the outcome, the effects
performed, and how many times the operation was invoked. -/
def withRetryGo {T : Type} (op : Nat → Except Thrown T × List Effect)
    (baseDelayMs attempt : Nat) :
    Nat → Option Thrown → Except Thrown T × List Effect × Nat
  | 0, lastError => (Except.error (orUndefined lastError), [], 0)
  | r + 1, _ =>
    match op attempt with
    | (Except.ok v, fx) => (Except.ok v, fx, 1)
    | (Except.error e, fx) =>
      let sfx : List Effect :=
        if r = 0 then [] else [Effect.sleep (baseDelayMs * 2 ^ (attempt - 1))]
      let rest := withRetryGo op baseDelayMs (attempt + 1) r (some (asError e))
      (rest.1, fx ++ sfx ++ rest.2.1, rest.2.2 + 1)

/-- `withRetry(operation, maxAttempts, baseDelayMs)` from the ddns-updater
source.  The operation oracle is indexed by the attempt number so that
successive attempts may observe different outcomes. -/
def withRetry {T : Type} (op : Nat → Except Thrown T × List Effect)
    (maxAttempts baseDelayMs : Nat) : Except Thrown T × List Effect × Nat :=
  withRetryGo op baseDelayMs 1 maxAttempts none

namespace Recovery

/-- `Instance did not reach running state within ${maxAttempts * 10} seconds`. -/
def timeoutMsg (maxAttempts : Nat) : String :=
  "Instance did not reach running state within " ++ toString (maxAttempts * 10)
    ++ " seconds"

/-- Loop body of `waitForInstanceRunning` (recovery `index.ts`), recursing on
the number of poll attempts remaining.  `states attempt` is the value of
`response.Reservations?.[0]?.Instances?.[0]?.State?.Name` observed by the
1-based poll `attempt` (`none` when any link of that chain is missing). -/
def waitForInstanceRunningGo (states : Nat → Option String)
    (instanceId : String) (maxAttempts attempt : Nat) :
    Nat → Except Thrown Unit × List Effect
  | 0 => (Except.error (Thrown.err (timeoutMsg maxAttempts)), [])
  | r + 1 =>
    let st := states attempt
    if st = some "running" then
      (Except.ok (), [Effect.ec2Describe instanceId])
    else if st = some "terminated" ∨ st = some "shutting-down" then
      (Except.error
        (Thrown.err ("Instance entered terminal state: " ++ st.getD "")),
       [Effect.ec2Describe instanceId])
    else
      let rest :=
        waitForInstanceRunningGo states instanceId maxAttempts (attempt + 1) r
      (rest.1, Effect.ec2Describe instanceId :: Effect.sleep 10000 :: rest.2)

/-- `waitForInstanceRunning(instanceId, maxAttempts)` from the recovery
source (the call site uses the default `maxAttempts = 30`). -/
def waitForInstanceRunning (states : Nat → Option String)
    (instanceId : String) (maxAttempts : Nat) :
    Except Thrown Unit × List Effect :=
  waitForInstanceRunningGo states instanceId maxAttempts 1 maxAttempts

/-- `launchNewSpotInstance()`: `instances` is `response.Instances` of the
`RunInstancesCommand` reply (`none` for an absent field, and each element is
the instance's optional `InstanceId`). -/
def launchNewSpotInstance (instances : Option (List (Option String))) :
    Except Thrown String × List Effect :=
  match instances with
  | none =>
    (Except.error (Thrown.err "Failed to launch spot instance"),
     [Effect.ec2RunInstances])
  | some [] =>
    (Except.error (Thrown.err "Failed to launch spot instance"),
     [Effect.ec2RunInstances])
  | some (first :: _) =>
    match first with
    | none =>
      (Except.error (Thrown.err "Instance ID not returned"),
       [Effect.ec2RunInstances])
    | some newInstanceId => (Except.ok newInstanceId, [Effect.ec2RunInstances])

/-- The external world as the Recovery Controller's handler observes it. -/
structure Env where
  /-- `response.Parameter?.Value` for the `instance-id` parameter read. -/
  storedId : Option String
  /-- `response.Instances` of the launch call. -/
  instances : Option (List (Option String))
  /-- Outcome of the `PutParameterCommand` send. -/
  putOutcome : Except Thrown Unit
  /-- Poll oracle for `waitForInstanceRunning`. -/
  states : Nat → Option String

/-- Result of one Recovery Controller invocation: the handler's outcome, its
effect trace, and the value the `instance-id` parameter holds afterwards. -/
structure Out where
  res : Except Thrown Unit
  fx : List Effect
  stored : Option String

/-- The Recovery Controller `handler` (recovery `index.ts`), for the signal
`{ "instance-id": interruptedInstanceId }` with store prefix `pfx`.  The
outer catch logs and rethrows, so errors propagate unchanged. -/
def handler (pfx interruptedInstanceId : String) (env : Env) : Out :=
  let name := pfx ++ "/instance-id"
  match env.storedId with
  | none =>
    ⟨Except.error (Thrown.err ("Parameter not found: " ++ name)),
     [Effect.ssmGet name], none⟩
  | some currentInstanceId =>
    if currentInstanceId ≠ interruptedInstanceId ∧ currentInstanceId ≠ "initial"
    then ⟨Except.ok (), [Effect.ssmGet name], some currentInstanceId⟩
    else
      match launchNewSpotInstance env.instances with
      | (Except.error e, lfx) =>
        ⟨Except.error e, Effect.ssmGet name :: lfx, some currentInstanceId⟩
      | (Except.ok newInstanceId, lfx) =>
        match env.putOutcome with
        | Except.error e =>
          ⟨Except.error e,
           Effect.ssmGet name :: lfx ++ [Effect.ssmPut name newInstanceId],
           some currentInstanceId⟩
        | Except.ok _ =>
          let w := waitForInstanceRunning env.states newInstanceId 30
          ⟨w.1,
           Effect.ssmGet name :: lfx
             ++ Effect.ssmPut name newInstanceId :: w.2,
           some newInstanceId⟩

end Recovery

namespace Ddns

/-- A Cloudflare DNS record as the ddns-updater source sees it. -/
structure DnsRecord where
  recId : String
  recType : String
  name : String
  content : String
  ttl : Nat
  proxied : Bool
deriving DecidableEq, Repr

/-- The shape of one `fetch` PATCH response as inspected by
`updateCloudflareRecord`: `response.ok`, `response.status`, the error body
text, and the parsed JSON payload's `success`, serialized `errors`, and
`result` fields. -/
structure FetchResp where
  respOk : Bool
  status : Nat
  bodyText : String
  success : Bool
  errorsJson : String
  result : DnsRecord
deriving DecidableEq, Repr

/-- `getInstancePublicIp(instanceId)` from the ddns-updater source.
`resp` is `Reservations?.[0]?.Instances?.[0]` (`none` when missing), holding
the instance's optional `PublicIpAddress`. -/
def getInstancePublicIp (resp : Option (Option String))
    (instanceId : String) : Except Thrown String × List Effect :=
  match resp with
  | none =>
    (Except.error (Thrown.err ("Instance not found: " ++ instanceId)),
     [Effect.ec2Describe instanceId])
  | some none =>
    (Except.error
      (Thrown.err ("Instance " ++ instanceId ++ " does not have a public IP")),
     [Effect.ec2Describe instanceId])
  | some (some publicIp) =>
    (Except.ok publicIp, [Effect.ec2Describe instanceId])

/-- `updateCloudflareRecord(ip)` from the ddns-updater source: fetch the API
token from the state store, then PATCH the record.  `tokenParam` is the
token parameter's optional value; `resp` the PATCH response. -/
def updateCloudflareRecord (pfx zoneId recordId : String)
    (tokenParam : Option String) (resp : FetchResp) (ip : String) :
    Except Thrown DnsRecord × List Effect :=
  let tokenName := pfx ++ "/cloudflare-token"
  match tokenParam with
  | none =>
    (Except.error (Thrown.err ("Parameter not found: " ++ tokenName)),
     [Effect.ssmGet tokenName])
  | some _token =>
    let url := "https://api.cloudflare.com/client/v4/zones/" ++ zoneId
      ++ "/dns_records/" ++ recordId
    let fx := [Effect.ssmGet tokenName, Effect.fetchPatch url ip]
    if resp.respOk = false then
      (Except.error
        (Thrown.err ("Cloudflare API error: " ++ toString resp.status
          ++ " - " ++ resp.bodyText)),
       fx)
    else if resp.success = false then
      (Except.error
        (Thrown.err ("Cloudflare API failed: " ++ resp.errorsJson)), fx)
    else
      (Except.ok resp.result, fx)

/-- The external world as the DNS Reconciler's handler observes it.  The IP
lookup and the DNS update are both retried, so their oracles are indexed by
the 1-based attempt number of their respective retry policies. -/
structure Env where
  /-- `response.Parameter?.Value` for the `instance-id` parameter read. -/
  storedId : Option String
  /-- Per-attempt `DescribeInstances` reply for `getInstancePublicIp`. -/
  ipResp : Nat → Option (Option String)
  /-- Per-attempt Cloudflare token parameter value. -/
  tokenParam : Nat → Option String
  /-- Per-attempt Cloudflare PATCH response. -/
  dnsResp : Nat → FetchResp

/-- The DNS Reconciler `handler` (ddns-updater `index.ts`), for the signal
`{ "instance-id": instanceId, state: state }` with store prefix `pfx`.  The
outer catch logs and rethrows, so errors propagate unchanged. -/
def handler (pfx zoneId recordId instanceId state : String) (env : Env) :
    Except Thrown Unit × List Effect :=
  if state ≠ "running" then (Except.ok (), [])
  else
    let name := pfx ++ "/instance-id"
    match env.storedId with
    | none =>
      (Except.error (Thrown.err ("Parameter not found: " ++ name)),
       [Effect.ssmGet name])
    | some managedInstanceId =>
      if managedInstanceId ≠ instanceId then (Except.ok (), [Effect.ssmGet name])
      else
        let ipRun :=
          withRetry (fun k => getInstancePublicIp (env.ipResp k) instanceId)
            5 2000
        match ipRun.1 with
        | Except.error e => (Except.error e, Effect.ssmGet name :: ipRun.2.1)
        | Except.ok publicIp =>
          let dnsRun :=
            withRetry
              (fun k => updateCloudflareRecord pfx zoneId recordId
                (env.tokenParam k) (env.dnsResp k) publicIp)
              3 1000
          match dnsRun.1 with
          | Except.error e =>
            (Except.error e, Effect.ssmGet name :: ipRun.2.1 ++ dnsRun.2.1)
          | Except.ok _ =>
            (Except.ok (), Effect.ssmGet name :: ipRun.2.1 ++ dnsRun.2.1)

end Ddns

namespace Recovery

/-- A polled lifecycle value on which `waitForInstanceRunning` stops:
observed `running` succeeds, observed `terminated` or `shutting-down`
raises; everything else (any other state, or a missing
reservation/instance/state) lets the loop continue. -/
def decisive (s : Option String) : Prop :=
  s = some "running" ∨ s = some "terminated" ∨ s = some "shutting-down"

instance (s : Option String) : Decidable (decisive s) := by
  unfold decisive
  infer_instance

theorem waitGo_continue (states : Nat → Option String) (iid : String)
    (m a r : Nat) (h : ¬ decisive (states a)) :
    waitForInstanceRunningGo states iid m a (r + 1) =
      ((waitForInstanceRunningGo states iid m (a + 1) r).1,
       Effect.ec2Describe iid :: Effect.sleep 10000 ::
         (waitForInstanceRunningGo states iid m (a + 1) r).2) := by
  have h1 : ¬ states a = some "running" := fun hc => h (Or.inl hc)
  have h2 : ¬ (states a = some "terminated" ∨ states a = some "shutting-down") :=
    fun hc => h (Or.inr hc)
  simp [waitForInstanceRunningGo, h1, h2]

theorem waitGo_success (states : Nat → Option String) (iid : String) (m : Nat) :
    ∀ (r a j : Nat), a ≤ j → j < a + r → states j = some "running" →
    (∀ k, a ≤ k → k < j → ¬ decisive (states k)) →
    (waitForInstanceRunningGo states iid m a r).1 = Except.ok () ∧
      countDescribes (waitForInstanceRunningGo states iid m a r).2 = j - a + 1 := by
  intro r
  induction r with
  | zero => intro a j h1 h2 _ _; omega
  | succ r ih =>
    intro a j h1 h2 hrun hskip
    rcases Nat.eq_or_lt_of_le h1 with heq | hlt
    · subst heq
      simp [waitForInstanceRunningGo, hrun, countDescribes]
    · have hnd : ¬ decisive (states a) := hskip a (le_refl a) hlt
      rw [waitGo_continue states iid m a r hnd]
      have hrec := ih (a + 1) j hlt (by omega) hrun
        (fun k hk1 hk2 => hskip k (by omega) hk2)
      refine ⟨hrec.1, ?_⟩
      simp [countDescribes] at hrec ⊢
      omega

theorem waitGo_terminal (states : Nat → Option String) (iid : String) (m : Nat) :
    ∀ (r a j : Nat) (s : String), a ≤ j → j < a + r → states j = some s →
    (s = "terminated" ∨ s = "shutting-down") →
    (∀ k, a ≤ k → k < j → ¬ decisive (states k)) →
    (waitForInstanceRunningGo states iid m a r).1 =
        Except.error (Thrown.err ("Instance entered terminal state: " ++ s)) ∧
      countDescribes (waitForInstanceRunningGo states iid m a r).2 = j - a + 1 := by
  intro r
  induction r with
  | zero => intro a j s h1 h2 _ _ _; omega
  | succ r ih =>
    intro a j s h1 h2 hst hterm hskip
    rcases Nat.eq_or_lt_of_le h1 with heq | hlt
    · subst heq
      have hnotrun : ¬ states a = some "running" := by
        rw [hst]
        rcases hterm with h | h <;> subst h <;> decide
      have hterm2 : states a = some "terminated" ∨ states a = some "shutting-down" := by
        rw [hst]
        rcases hterm with h | h <;> subst h <;> simp
      simp only [waitForInstanceRunningGo]
      rw [if_neg hnotrun, if_pos hterm2]
      simp [hst, countDescribes]
    · have hnd : ¬ decisive (states a) := hskip a (le_refl a) hlt
      rw [waitGo_continue states iid m a r hnd]
      have hrec := ih (a + 1) j s hlt (by omega)
        hst hterm (fun k hk1 hk2 => hskip k (by omega) hk2)
      refine ⟨hrec.1, ?_⟩
      simp [countDescribes] at hrec ⊢
      omega

theorem waitGo_timeout (states : Nat → Option String) (iid : String) (m : Nat) :
    ∀ (r a : Nat), (∀ k, a ≤ k → k < a + r → ¬ decisive (states k)) →
    waitForInstanceRunningGo states iid m a r =
      (Except.error (Thrown.err (timeoutMsg m)),
       (List.replicate r [Effect.ec2Describe iid, Effect.sleep 10000]).flatten) := by
  intro r
  induction r with
  | zero => intro a _; simp [waitForInstanceRunningGo]
  | succ r ih =>
    intro a hnd
    rw [waitGo_continue states iid m a r (hnd a (le_refl a) (by omega))]
    rw [ih (a + 1) (fun k hk1 hk2 => hnd k (by omega) (by omega))]
    simp [List.replicate_succ]

theorem waitGo_effects (states : Nat → Option String) (iid : String) (m : Nat) :
    ∀ (r a : Nat) (e : Effect), e ∈ (waitForInstanceRunningGo states iid m a r).2 →
    e = Effect.ec2Describe iid ∨ e = Effect.sleep 10000 := by
  intro r
  induction r with
  | zero => intro a e he; simp [waitForInstanceRunningGo] at he
  | succ r ih =>
    intro a e he
    by_cases hnd : decisive (states a)
    · rcases hnd with h | h | h
      · simp [waitForInstanceRunningGo, h] at he
        exact Or.inl he
      all_goals
        have hnotrun : ¬ states a = some "running" := by rw [h]; simp
        have hterm : states a = some "terminated" ∨ states a = some "shutting-down" := by
          rw [h]; simp
        simp [waitForInstanceRunningGo, hnotrun, hterm] at he
        exact Or.inl he
    · rw [waitGo_continue states iid m a r hnd] at he
      simp at he
      rcases he with h | h | h
      · exact Or.inl h
      · exact Or.inr h
      · exact ih (a + 1) e h

theorem waitGo_count_le (states : Nat → Option String) (iid : String) (m : Nat) :
    ∀ (r a : Nat), countDescribes (waitForInstanceRunningGo states iid m a r).2 ≤ r := by
  intro r
  induction r with
  | zero => intro a; simp [waitForInstanceRunningGo, countDescribes]
  | succ r ih =>
    intro a
    by_cases hnd : decisive (states a)
    · rcases hnd with h | h | h
      · simp [waitForInstanceRunningGo, h, countDescribes]
      all_goals
        have hnotrun : ¬ states a = some "running" := by rw [h]; simp
        have hterm : states a = some "terminated" ∨ states a = some "shutting-down" := by
          rw [h]; simp
        simp [waitForInstanceRunningGo, hnotrun, hterm, countDescribes]
    · rw [waitGo_continue states iid m a r hnd]
      have := ih (a + 1)
      simp [countDescribes] at this ⊢
      omega

end Recovery

/-! ### Loop lemmas for the shared retry utility -/

theorem withRetryGo_ok_first {T : Type} (op : Nat → Except Thrown T × List Effect)
    (d a r : Nat) (le : Option Thrown) (v : T) (fx : List Effect)
    (h : op a = (Except.ok v, fx)) :
    withRetryGo op d a (r + 1) le = (Except.ok v, fx, 1) := by
  simp [withRetryGo, h]

theorem withRetryGo_succeeds {T : Type} (op : Nat → Except Thrown T × List Effect)
    (d : Nat) (v : T) :
    ∀ (r a : Nat) (lastE : Option Thrown) (j : Nat), a ≤ j → j < a + r →
    (∀ k, a ≤ k → k < j → ∃ e, (op k).1 = Except.error e) →
    (op j).1 = Except.ok v →
    (withRetryGo op d a r lastE).1 = Except.ok v ∧
      (withRetryGo op d a r lastE).2.2 = j - a + 1 := by
  intro r
  induction r with
  | zero => intro a lastE j h1 h2 _ _; omega
  | succ r ih =>
    intro a lastE j h1 h2 hfail hok
    rcases Nat.eq_or_lt_of_le h1 with heq | hlt
    · subst heq
      rcases hop : op a with ⟨res, fx⟩
      rw [hop] at hok
      simp at hok
      subst hok
      simp [withRetryGo, hop]
    · obtain ⟨e, he⟩ := hfail a (le_refl a) hlt
      rcases hop : op a with ⟨res, fx⟩
      rw [hop] at he
      simp at he
      subst he
      have hrec := ih (a + 1) (some (asError e)) j hlt (by omega)
        (fun k hk1 hk2 => hfail k (by omega) hk2) hok
      constructor
      · simpa [withRetryGo, hop] using hrec.1
      · have : j - (a + 1) + 1 + 1 = j - a + 1 := by omega
        simpa [withRetryGo, hop, hrec.2] using this

theorem withRetryGo_all_fail {T : Type} (op : Nat → Except Thrown T × List Effect)
    (d : Nat) (err : Nat → Thrown) :
    ∀ (r a : Nat) (lastE : Option Thrown), 1 ≤ r →
    (∀ k, a ≤ k → k < a + r → (op k).1 = Except.error (err k)) →
    withRetryGo op d a r lastE =
      (Except.error (asError (err (a + r - 1))),
       ((List.range' a r).map fun k =>
         (op k).2 ++ if k + 1 < a + r then [Effect.sleep (d * 2 ^ (k - 1))] else []).flatten,
       r) := by
  intro r
  induction r with
  | zero => intro a lastE h1 _; omega
  | succ r ih =>
    intro a lastE _ hfail
    have ha : (op a).1 = Except.error (err a) := hfail a (le_refl a) (by omega)
    rcases hop : op a with ⟨res, fx⟩
    rw [hop] at ha
    simp at ha
    subst ha
    rcases Nat.eq_zero_or_pos r with hr | hr
    · subst hr
      simp [withRetryGo, hop, orUndefined]
    · have hrec := ih (a + 1) (some (asError (err a))) hr
        (fun k hk1 hk2 => hfail k (by omega) (by omega))
      have harith : a + 1 + r - 1 = a + (r + 1) - 1 := by omega
      have hcond : ∀ k : Nat, (k + 1 < a + 1 + r) = (k + 1 < a + (r + 1)) := by
        intro k; exact propext (by omega)
      rw [harith] at hrec
      simp only [hcond] at hrec
      have hrange : List.range' a (r + 1) = a :: List.range' (a + 1) r :=
        List.range'_succ a r 1
      have hsfx : ¬ r = 0 := by omega
      simp [withRetryGo, hop, hsfx, hrec, hrange, hcond]
      rw [if_pos hr]
      rfl

namespace Recovery

theorem waitGo_no_running_error (states : Nat → Option String) (iid : String)
    (m : Nat) :
    ∀ (r a : Nat), (∀ k, a ≤ k → k < a + r → states k ≠ some "running") →
    ∃ e, (waitForInstanceRunningGo states iid m a r).1 = Except.error e := by
  intro r
  induction r with
  | zero =>
    intro a _
    exact ⟨Thrown.err (timeoutMsg m), rfl⟩
  | succ r ih =>
    intro a hnr
    have hnotrun : ¬ states a = some "running" := hnr a (le_refl a) (by omega)
    by_cases hterm : states a = some "terminated" ∨ states a = some "shutting-down"
    · refine ⟨Thrown.err ("Instance entered terminal state: " ++ (states a).getD ""), ?_⟩
      simp only [waitForInstanceRunningGo]
      rw [if_neg hnotrun, if_pos hterm]
    · have hnd : ¬ decisive (states a) := by
        intro hd
        rcases hd with h | h | h
        · exact hnotrun h
        · exact hterm (Or.inl h)
        · exact hterm (Or.inr h)
      rw [waitGo_continue states iid m a r hnd]
      exact ih (a + 1) (fun k hk1 hk2 => hnr k (by omega) (by omega))

end Recovery

/-- The payload of a failed `Except`, `undefined` on success. -/
def errOf {T : Type} : Except Thrown T → Thrown
  | Except.error e => e
  | Except.ok _ => Thrown.undef

theorem errOf_eq {T : Type} (x : Except Thrown T)
    (h : ∃ e, x = Except.error e) : x = Except.error (errOf x) := by
  obtain ⟨e, he⟩ := h
  subst he
  rfl

namespace Ddns

theorem getInstancePublicIp_fx (resp : Option (Option String)) (iid : String) :
    (getInstancePublicIp resp iid).2 = [Effect.ec2Describe iid] := by
  rcases resp with _ | o
  · rfl
  · rcases o with _ | ip <;> rfl

theorem updateCloudflareRecord_fx (pfx zoneId recordId t ip : String)
    (resp : FetchResp) :
    (updateCloudflareRecord pfx zoneId recordId (some t) resp ip).2 =
      [Effect.ssmGet (pfx ++ "/cloudflare-token"),
       Effect.fetchPatch
         ("https://api.cloudflare.com/client/v4/zones/" ++ zoneId
           ++ "/dns_records/" ++ recordId) ip] := by
  simp only [updateCloudflareRecord]
  split_ifs <;> rfl

theorem updateCloudflareRecord_isError (pfx zoneId recordId ip : String)
    (tokenParam : Option String) (resp : FetchResp)
    (h : resp.respOk = false ∨ resp.success = false) :
    ∃ e, (updateCloudflareRecord pfx zoneId recordId tokenParam resp ip).1 =
      Except.error e := by
  rcases tokenParam with _ | t
  · exact ⟨_, rfl⟩
  · simp only [updateCloudflareRecord]
    rcases h with h | h
    · rw [if_pos h]
      exact ⟨_, rfl⟩
    · by_cases hok : resp.respOk = false
      · rw [if_pos hok]
        exact ⟨_, rfl⟩
      · rw [if_neg hok, if_pos h]
        exact ⟨_, rfl⟩

end Ddns

/-! ### Claim theorems -/

/-- C1: a replacement resource is requested only if the stored Authoritative
Resource Reference equals the signaled instance id or the sentinel
`"initial"`; in every other case the handler creates no resource, writes
nothing to the state store, and returns successfully. -/
theorem recovery_applicability_guard (pfx iid : String) (env : Recovery.Env) :
    (Effect.ec2RunInstances ∈ (Recovery.handler pfx iid env).fx →
      ∃ cur, env.storedId = some cur ∧ (cur = iid ∨ cur = "initial")) ∧
    (∀ cur, env.storedId = some cur → cur ≠ iid → cur ≠ "initial" →
      Recovery.handler pfx iid env =
        ⟨Except.ok (), [Effect.ssmGet (pfx ++ "/instance-id")], some cur⟩) := by
  constructor
  · intro hmem
    rcases hst : env.storedId with _ | cur
    · simp [Recovery.handler, hst] at hmem
    · by_cases happ : cur = iid ∨ cur = "initial"
      · exact ⟨cur, rfl, happ⟩
      · push_neg at happ
        simp [Recovery.handler, hst, happ.1, happ.2] at hmem
  · intro cur hst hne hni
    simp [Recovery.handler, hst, hne, hni]

/-- Witness for C1: reference holds `i-a`, a signal for foreign id `i-b`
is discarded with no launch, no write, and a successful return. -/
theorem recovery_applicability_guard_witness :
    Recovery.handler "/p" "i-b"
        ⟨some "i-a", none, Except.ok (), fun _ => none⟩ =
      ⟨Except.ok (), [Effect.ssmGet ("/p" ++ "/instance-id")], some "i-a"⟩ :=
  (recovery_applicability_guard "/p" "i-b"
    ⟨some "i-a", none, Except.ok (), fun _ => none⟩).2 "i-a" rfl
    (by decide) (by decide)

/-- C5: for a state-change signal whose lifecycle state is not `"running"`,
the DNS Reconciler returns successfully with an empty effect trace: no
state-store read, no instance metadata lookup, no DNS provider request. -/
theorem ddns_nonrunning_noop (pfx zoneId recordId iid st : String)
    (env : Ddns.Env) (h : st ≠ "running") :
    Ddns.handler pfx zoneId recordId iid st env = (Except.ok (), []) := by
  simp [Ddns.handler, h]

/-- Witness for C5: a `pending` state-change signal is a no-op. -/
theorem ddns_nonrunning_noop_witness :
    Ddns.handler "/p" "z" "r" "i-a" "pending"
        ⟨some "i-a", fun _ => none, fun _ => none,
         fun _ => ⟨true, 200, "", true, "", ⟨"", "", "", "", 1, false⟩⟩⟩ =
      (Except.ok (), []) :=
  ddns_nonrunning_noop "/p" "z" "r" "i-a" "pending" _ (by decide)

/-- C8: if the launch succeeds but the state-store write fails, the
invocation raises the write's error, the launch has already happened, and
the Authoritative Resource Reference still holds its old value. -/
theorem recovery_put_failure_leaves_old_reference (pfx iid cur newId : String)
    (restL : List (Option String)) (e : Thrown) (env : Recovery.Env)
    (hst : env.storedId = some cur) (happ : cur = iid ∨ cur = "initial")
    (hlaunch : env.instances = some (some newId :: restL))
    (hput : env.putOutcome = Except.error e) :
    Recovery.handler pfx iid env =
      ⟨Except.error e,
       [Effect.ssmGet (pfx ++ "/instance-id"), Effect.ec2RunInstances,
        Effect.ssmPut (pfx ++ "/instance-id") newId],
       some cur⟩ := by
  have hcond : ¬ (cur ≠ iid ∧ cur ≠ "initial") := by
    rcases happ with h | h <;> simp [h]
  simp [Recovery.handler, hst, hcond, Recovery.launchNewSpotInstance, hlaunch,
    hput]

/-- Witness for C8: `i-new` is launched, the write fails, the error is
raised and the reference still holds `i-a`. -/
theorem recovery_put_failure_leaves_old_reference_witness :
    Recovery.handler "/p" "i-a"
        ⟨some "i-a", some [some "i-new"], Except.error (Thrown.err "ssm down"),
         fun _ => some "running"⟩ =
      ⟨Except.error (Thrown.err "ssm down"),
       [Effect.ssmGet ("/p" ++ "/instance-id"), Effect.ec2RunInstances,
        Effect.ssmPut ("/p" ++ "/instance-id") "i-new"],
       some "i-a"⟩ :=
  recovery_put_failure_leaves_old_reference "/p" "i-a" "i-a" "i-new" [] _ _
    rfl (Or.inl rfl) rfl rfl

/-- C10: called with a maximum attempt count below 1, `withRetry` never
invokes the operation and throws the JavaScript value `undefined` (not an
Error object). -/
theorem withRetry_zero_attempts {T : Type}
    (op : Nat → Except Thrown T × List Effect) (d n : Nat) (h : n < 1) :
    withRetry op n d = (Except.error Thrown.undef, [], 0) := by
  have hz : n = 0 := by omega
  subst hz
  rfl

/-- Witness for C10: even an always-succeeding operation is never invoked
when the attempt budget is 0, and `undefined` is thrown. -/
theorem withRetry_zero_attempts_witness :
    withRetry (fun _ => (Except.ok 1, [Effect.ec2RunInstances])) 0 5 =
      (Except.error Thrown.undef, [], 0) :=
  withRetry_zero_attempts _ 5 0 (by decide)

/-- C4: with its 30-attempt budget, `waitForInstanceRunning` polls at most
30 times, every wait between polls is 10 seconds, it succeeds at the first
poll that observes `running` (having polled exactly that many times), it
raises at the first poll that observes `terminated` or `shutting-down`, and
it raises an error whenever no poll ever observes `running`. -/
theorem waitForInstanceRunning_spec (states : Nat → Option String)
    (iid : String) :
    countDescribes (Recovery.waitForInstanceRunning states iid 30).2 ≤ 30 ∧
    (∀ ms, Effect.sleep ms ∈ (Recovery.waitForInstanceRunning states iid 30).2 →
      ms = 10000) ∧
    (∀ k, 1 ≤ k → k ≤ 30 → states k = some "running" →
      (∀ j, 1 ≤ j → j < k → ¬ Recovery.decisive (states j)) →
      (Recovery.waitForInstanceRunning states iid 30).1 = Except.ok () ∧
        countDescribes (Recovery.waitForInstanceRunning states iid 30).2 = k) ∧
    (∀ k s, 1 ≤ k → k ≤ 30 → states k = some s →
      (s = "terminated" ∨ s = "shutting-down") →
      (∀ j, 1 ≤ j → j < k → ¬ Recovery.decisive (states j)) →
      (Recovery.waitForInstanceRunning states iid 30).1 =
          Except.error (Thrown.err ("Instance entered terminal state: " ++ s)) ∧
        countDescribes (Recovery.waitForInstanceRunning states iid 30).2 = k) ∧
    ((∀ k, 1 ≤ k → k ≤ 30 → states k ≠ some "running") →
      ∃ e, (Recovery.waitForInstanceRunning states iid 30).1 =
        Except.error e) := by
  refine ⟨?_, ?_, ?_, ?_, ?_⟩
  · exact Recovery.waitGo_count_le states iid 30 30 1
  · intro ms hms
    rcases Recovery.waitGo_effects states iid 30 30 1 _ hms with h | h
    · simp at h
    · simp at h
      exact h
  · intro k h1 h2 hrun hskip
    have h := Recovery.waitGo_success states iid 30 30 1 k h1 (by omega) hrun
      (fun j hj1 hj2 => hskip j hj1 hj2)
    refine ⟨h.1, ?_⟩
    show countDescribes (Recovery.waitForInstanceRunningGo states iid 30 1 30).2 = k
    have hc := h.2
    omega
  · intro k s h1 h2 hst hterm hskip
    have h := Recovery.waitGo_terminal states iid 30 30 1 k s h1 (by omega) hst
      hterm (fun j hj1 hj2 => hskip j hj1 hj2)
    refine ⟨h.1, ?_⟩
    show countDescribes (Recovery.waitForInstanceRunningGo states iid 30 1 30).2 = k
    have hc := h.2
    omega
  · intro hnr
    exact Recovery.waitGo_no_running_error states iid 30 30 1
      (fun k hk1 hk2 => hnr k hk1 (by omega))

/-- Witness for C4: a first poll observing `running` succeeds after exactly
one poll. -/
theorem waitForInstanceRunning_spec_witness :
    (Recovery.waitForInstanceRunning (fun _ => some "running") "i-new" 30).1 =
        Except.ok () ∧
      countDescribes
        (Recovery.waitForInstanceRunning (fun _ => some "running") "i-new" 30).2 =
        1 :=
  (waitForInstanceRunning_spec (fun _ => some "running") "i-new").2.2.1 1
    (le_refl 1) (by omega) rfl
    (by intro j h1 h2; exact absurd h2 (by omega))

/-- C9: any polled lifecycle value other than `running`, `terminated` and
`shutting-down` — including a missing reservation, instance or state — is
treated as not yet ready: the loop neither succeeds nor fails on it but
waits 10 seconds and polls again, and after the 30-attempt budget it raises
the timeout error, having performed exactly 30 polls each followed by a
10-second wait. -/
theorem waitForInstanceRunning_indecisive_polls (states : Nat → Option String)
    (iid : String)
    (h : ∀ k, 1 ≤ k → k ≤ 30 → ∀ s, states k = some s →
      s ≠ "running" ∧ s ≠ "terminated" ∧ s ≠ "shutting-down") :
    Recovery.waitForInstanceRunning states iid 30 =
      (Except.error (Thrown.err (Recovery.timeoutMsg 30)),
       (List.replicate 30 [Effect.ec2Describe iid, Effect.sleep 10000]).flatten) := by
  apply Recovery.waitGo_timeout states iid 30 30 1
  intro k hk1 hk2 hd
  rcases hs : states k with _ | s
  · rcases hd with hc | hc | hc <;> rw [hs] at hc <;> cases hc
  · have := h k hk1 (by omega) s hs
    rcases hd with hc | hc | hc <;> rw [hs] at hc <;>
      simp at hc
    · exact this.1 hc
    · exact this.2.1 hc
    · exact this.2.2 hc

/-- Witness for C9: a describe chain that never yields any state at all
(`none` at every poll) times out after 30 poll/wait rounds. -/
theorem waitForInstanceRunning_indecisive_polls_witness :
    Recovery.waitForInstanceRunning (fun _ => none) "i-new" 30 =
      (Except.error (Thrown.err (Recovery.timeoutMsg 30)),
       (List.replicate 30 [Effect.ec2Describe "i-new", Effect.sleep 10000]).flatten) :=
  waitForInstanceRunning_indecisive_polls (fun _ => none) "i-new"
    (by intro k h1 h2 s hs; cases hs)

/-- C2: for `maxAttempts = n ≥ 1`, `withRetry` returns a first-attempt
success as is with a single invocation; stops at the first successful
attempt `j` having invoked the operation exactly `j` times; and after `n`
consecutive failures raises the error observed on the last attempt, with
the wait `d * 2 ^ (k - 1)` placed after each failed attempt `k < n`. -/
theorem withRetry_spec {T : Type} (op : Nat → Except Thrown T × List Effect)
    (n d : Nat) (hn : 1 ≤ n) :
    (∀ v fx, op 1 = (Except.ok v, fx) →
      withRetry op n d = (Except.ok v, fx, 1)) ∧
    (∀ j v, 1 ≤ j → j ≤ n →
      (∀ k, 1 ≤ k → k < j → ∃ e, (op k).1 = Except.error e) →
      (op j).1 = Except.ok v →
      (withRetry op n d).1 = Except.ok v ∧ (withRetry op n d).2.2 = j) ∧
    (∀ err : Nat → Thrown,
      (∀ k, 1 ≤ k → k ≤ n → (op k).1 = Except.error (err k)) →
      withRetry op n d =
        (Except.error (asError (err n)),
         ((List.range' 1 n).map fun k =>
           (op k).2 ++ if k < n then [Effect.sleep (d * 2 ^ (k - 1))]
             else []).flatten,
         n)) := by
  refine ⟨?_, ?_, ?_⟩
  · intro v fx hop
    obtain ⟨r, hr⟩ : ∃ r, n = r + 1 := ⟨n - 1, by omega⟩
    subst hr
    exact withRetryGo_ok_first op d 1 r none v fx hop
  · intro j v h1 h2 hfail hok
    have h := withRetryGo_succeeds op d v n 1 none j h1 (by omega)
      (fun k hk1 hk2 => hfail k hk1 hk2) hok
    refine ⟨h.1, ?_⟩
    show (withRetryGo op d 1 n none).2.2 = j
    have hc := h.2
    omega
  · intro err hfail
    have h := withRetryGo_all_fail op d err n 1 none hn
      (fun k hk1 hk2 => hfail k hk1 (by omega))
    rw [show (1 : Nat) + n - 1 = n from by omega] at h
    have hcond : ∀ k : Nat, (k + 1 < 1 + n) = (k < n) :=
      fun k => propext (by omega)
    simp only [hcond] at h
    exact h

/-- Witness for C2: an operation that always fails is retried 3 times with
base delay 1000 ms, waiting 1 s then 2 s, and its last error is raised. -/
theorem withRetry_spec_witness :
    withRetry
        (fun _ => ((Except.error (Thrown.err "boom") : Except Thrown Nat), []))
        3 1000 =
      (Except.error (Thrown.err "boom"),
       [Effect.sleep 1000, Effect.sleep 2000], 3) := by
  have h := (withRetry_spec
      (fun _ => ((Except.error (Thrown.err "boom") : Except Thrown Nat), []))
      3 1000 (by omega)).2.2
    (fun _ => Thrown.err "boom") (fun k _ _ => rfl)
  rw [h]
  rfl

/-- C3: in every Recovery Controller invocation, any lifecycle poll in the
effect trace is strictly preceded by the state-store write of the new
instance id, and the polled id is that newly written id. -/
theorem recovery_put_before_poll (pfx iid : String) (env : Recovery.Env)
    (i : Nat) (instId : String)
    (hdesc : (Recovery.handler pfx iid env).fx[i]? =
      some (Effect.ec2Describe instId)) :
    ∃ j newId, j < i ∧
      (Recovery.handler pfx iid env).fx[j]? =
        some (Effect.ssmPut (pfx ++ "/instance-id") newId) ∧
      instId = newId := by
  rcases hst : env.storedId with _ | cur
  · simp [Recovery.handler, hst] at hdesc
    rcases i with _ | i <;> simp at hdesc
  · by_cases happ : cur ≠ iid ∧ cur ≠ "initial"
    · simp [Recovery.handler, hst, happ.1, happ.2] at hdesc
      rcases i with _ | i <;> simp at hdesc
    · rcases hli : env.instances with _ | l
      · simp [Recovery.handler, hst, happ, Recovery.launchNewSpotInstance,
          hli] at hdesc
        rcases i with _ | _ | i <;> simp at hdesc
      · rcases l with _ | ⟨f, t⟩
        · simp [Recovery.handler, hst, happ, Recovery.launchNewSpotInstance,
            hli] at hdesc
          rcases i with _ | _ | i <;> simp at hdesc
        · rcases f with _ | newId
          · simp [Recovery.handler, hst, happ, Recovery.launchNewSpotInstance,
              hli] at hdesc
            rcases i with _ | _ | i <;> simp at hdesc
          · rcases hput : env.putOutcome with e | _
            · simp [Recovery.handler, hst, happ, Recovery.launchNewSpotInstance,
                hli, hput] at hdesc
              rcases i with _ | _ | _ | i <;> simp at hdesc
            · refine ⟨2, newId, ?_, ?_, ?_⟩
              · by_contra hlt
                have hi : i ≤ 2 := by omega
                simp [Recovery.handler, hst, happ, Recovery.launchNewSpotInstance,
                  hli, hput] at hdesc
                rcases i with _ | _ | _ | i <;> simp at hdesc
                omega
              · simp [Recovery.handler, hst, happ, Recovery.launchNewSpotInstance,
                  hli, hput]
              · simp [Recovery.handler, hst, happ, Recovery.launchNewSpotInstance,
                  hli, hput] at hdesc
                rcases i with _ | _ | _ | i
                · simp at hdesc
                · simp at hdesc
                · simp at hdesc
                · simp at hdesc
                  have hmem := List.getElem?_mem hdesc
                  rcases Recovery.waitGo_effects env.states newId 30 30 1 _ hmem
                    with h | h
                  · injection h
                  · cases h

/-- Witness for C3: in a full successful recovery the poll at index 3 is
preceded by the reference write at index 2. -/
theorem recovery_put_before_poll_witness :
    ∃ j newId, j < 3 ∧
      (Recovery.handler "/p" "i-a"
          ⟨some "i-a", some [some "i-new"], Except.ok (),
           fun _ => some "running"⟩).fx[j]? =
        some (Effect.ssmPut ("/p" ++ "/instance-id") newId) ∧
      "i-new" = newId :=
  recovery_put_before_poll "/p" "i-a"
    ⟨some "i-a", some [some "i-new"], Except.ok (), fun _ => some "running"⟩
    3 "i-new" (by decide)

/-- C6: when the public-address lookup fails on every attempt, the DNS
Reconciler raises an error after exactly 5 lookup attempts with waits
2 s, 4 s, 8 s, 16 s (base delay 2 s doubling), and performs zero DNS
provider API calls. -/
theorem ddns_ip_retry_exhaustion (pfx zoneId recordId iid : String)
    (env : Ddns.Env) (hst : env.storedId = some iid)
    (hip : ∀ k, 1 ≤ k → k ≤ 5 → ∀ ip, env.ipResp k ≠ some (some ip)) :
    (∃ e, (Ddns.handler pfx zoneId recordId iid "running" env).1 =
      Except.error e) ∧
    countDescribes (Ddns.handler pfx zoneId recordId iid "running" env).2 = 5 ∧
    countFetches (Ddns.handler pfx zoneId recordId iid "running" env).2 = 0 ∧
    sleepDelays (Ddns.handler pfx zoneId recordId iid "running" env).2 =
      [2000, 4000, 8000, 16000] := by
  have hop : ∀ k, 1 ≤ k → k < 1 + 5 →
      (Ddns.getInstancePublicIp (env.ipResp k) iid).1 =
        Except.error (errOf (Ddns.getInstancePublicIp (env.ipResp k) iid).1) := by
    intro k h1 h2
    rcases h : env.ipResp k with _ | o
    · rfl
    · rcases o with _ | ip
      · rfl
      · exact absurd h (hip k h1 (by omega) ip)
  have hfail := withRetryGo_all_fail
    (fun k => Ddns.getInstancePublicIp (env.ipResp k) iid) 2000
    (fun k => errOf (Ddns.getInstancePublicIp (env.ipResp k) iid).1) 5 1 none
    (by omega) hop
  rw [show List.range' 1 5 = [1, 2, 3, 4, 5] from rfl] at hfail
  simp only [List.map_cons, List.map_nil, Ddns.getInstancePublicIp_fx] at hfail
  norm_num at hfail
  have hwr : withRetry (fun k => Ddns.getInstancePublicIp (env.ipResp k) iid)
      5 2000 =
      (Except.error
        (asError (errOf (Ddns.getInstancePublicIp (env.ipResp 5) iid).1)),
       [Effect.ec2Describe iid, Effect.sleep 2000, Effect.ec2Describe iid,
        Effect.sleep 4000, Effect.ec2Describe iid, Effect.sleep 8000,
        Effect.ec2Describe iid, Effect.sleep 16000, Effect.ec2Describe iid],
       5) := hfail
  have hh : Ddns.handler pfx zoneId recordId iid "running" env =
      (Except.error
        (asError (errOf (Ddns.getInstancePublicIp (env.ipResp 5) iid).1)),
       Effect.ssmGet (pfx ++ "/instance-id") ::
         [Effect.ec2Describe iid, Effect.sleep 2000, Effect.ec2Describe iid,
          Effect.sleep 4000, Effect.ec2Describe iid, Effect.sleep 8000,
          Effect.ec2Describe iid, Effect.sleep 16000,
          Effect.ec2Describe iid]) := by
    simp only [Ddns.handler, hst, hwr]
    norm_num
  refine ⟨⟨_, by rw [hh]⟩, by rw [hh]; rfl, by rw [hh]; rfl, by rw [hh]; rfl⟩

/-- Witness for C6: a lookup that always reports no address assigned
exhausts the 5-attempt policy with waits 2 s, 4 s, 8 s, 16 s and never
reaches the DNS provider. -/
theorem ddns_ip_retry_exhaustion_witness :
    (∃ e, (Ddns.handler "/p" "z" "r" "i-a" "running"
        ⟨some "i-a", fun _ => some none, fun _ => none,
         fun _ => ⟨true, 200, "", true, "", ⟨"", "", "", "", 1, false⟩⟩⟩).1 =
      Except.error e) ∧
    countDescribes (Ddns.handler "/p" "z" "r" "i-a" "running"
        ⟨some "i-a", fun _ => some none, fun _ => none,
         fun _ => ⟨true, 200, "", true, "", ⟨"", "", "", "", 1, false⟩⟩⟩).2 = 5 ∧
    countFetches (Ddns.handler "/p" "z" "r" "i-a" "running"
        ⟨some "i-a", fun _ => some none, fun _ => none,
         fun _ => ⟨true, 200, "", true, "", ⟨"", "", "", "", 1, false⟩⟩⟩).2 = 0 ∧
    sleepDelays (Ddns.handler "/p" "z" "r" "i-a" "running"
        ⟨some "i-a", fun _ => some none, fun _ => none,
         fun _ => ⟨true, 200, "", true, "", ⟨"", "", "", "", 1, false⟩⟩⟩).2 =
      [2000, 4000, 8000, 16000] :=
  ddns_ip_retry_exhaustion "/p" "z" "r" "i-a"
    ⟨some "i-a", fun _ => some none, fun _ => none,
     fun _ => ⟨true, 200, "", true, "", ⟨"", "", "", "", 1, false⟩⟩⟩
    rfl (by intro k h1 h2 ip; simp)

/-- C7: a DNS update attempt fails exactly when the HTTP response has a
non-success status or the payload's `success` flag is false; the raised
error carries the HTTP error body text (non-success status) or the
serialized `errors` array (false `success` flag); and when all 3 attempts
of the DNS-update policy fail, the handler raises the last attempt's error
after exactly 3 provider calls. -/
theorem cloudflare_update_error_semantics (pfx zoneId recordId : String) :
    (∀ token resp ip,
      ((∃ e, (Ddns.updateCloudflareRecord pfx zoneId recordId (some token)
          resp ip).1 = Except.error e) ↔
        (resp.respOk = false ∨ resp.success = false)) ∧
      (resp.respOk = false →
        (Ddns.updateCloudflareRecord pfx zoneId recordId (some token)
            resp ip).1 =
          Except.error (Thrown.err ("Cloudflare API error: "
            ++ toString resp.status ++ " - " ++ resp.bodyText))) ∧
      (resp.respOk = true → resp.success = false →
        (Ddns.updateCloudflareRecord pfx zoneId recordId (some token)
            resp ip).1 =
          Except.error (Thrown.err ("Cloudflare API failed: "
            ++ resp.errorsJson)))) ∧
    (∀ (env : Ddns.Env) (iid pub : String), env.storedId = some iid →
      env.ipResp 1 = some (some pub) →
      (∀ k, 1 ≤ k → k ≤ 3 → ∃ t, env.tokenParam k = some t) →
      (∀ k, 1 ≤ k → k ≤ 3 →
        (env.dnsResp k).respOk = false ∨ (env.dnsResp k).success = false) →
      ∃ e, (Ddns.updateCloudflareRecord pfx zoneId recordId
          (env.tokenParam 3) (env.dnsResp 3) pub).1 = Except.error e ∧
        (Ddns.handler pfx zoneId recordId iid "running" env).1 =
          Except.error e ∧
        countFetches
          (Ddns.handler pfx zoneId recordId iid "running" env).2 = 3) := by
  constructor
  · intro token resp ip
    refine ⟨⟨?_, ?_⟩, ?_, ?_⟩
    · intro ⟨e, he⟩
      by_cases hok : resp.respOk = false
      · exact Or.inl hok
      · by_cases hs : resp.success = false
        · exact Or.inr hs
        · exfalso
          have hsucc : (Ddns.updateCloudflareRecord pfx zoneId recordId
              (some token) resp ip).1 = Except.ok resp.result := by
            simp only [Ddns.updateCloudflareRecord]
            rw [if_neg hok, if_neg hs]
          rw [hsucc] at he
          cases he
    · exact Ddns.updateCloudflareRecord_isError pfx zoneId recordId ip
        (some token) resp
    · intro h
      simp only [Ddns.updateCloudflareRecord]
      rw [if_pos h]
    · intro h1 h2
      have hok : ¬ resp.respOk = false := by simp [h1]
      simp only [Ddns.updateCloudflareRecord]
      rw [if_neg hok, if_pos h2]
  · intro env iid pub hst hip1 htok hfail
    obtain ⟨t1, ht1⟩ := htok 1 (by omega) (by omega)
    obtain ⟨t2, ht2⟩ := htok 2 (by omega) (by omega)
    obtain ⟨t3, ht3⟩ := htok 3 (by omega) (by omega)
    have hdnsop : ∀ k, 1 ≤ k → k < 1 + 3 →
        ((fun k => Ddns.updateCloudflareRecord pfx zoneId recordId
          (env.tokenParam k) (env.dnsResp k) pub) k).1 =
          Except.error (errOf ((fun k => Ddns.updateCloudflareRecord pfx
            zoneId recordId (env.tokenParam k) (env.dnsResp k) pub) k).1) := by
      intro k h1 h2
      exact errOf_eq _ (Ddns.updateCloudflareRecord_isError pfx zoneId
        recordId pub (env.tokenParam k) (env.dnsResp k)
        (hfail k h1 (by omega)))
    have hdns := withRetryGo_all_fail
      (fun k => Ddns.updateCloudflareRecord pfx zoneId recordId
        (env.tokenParam k) (env.dnsResp k) pub) 1000
      (fun k => errOf ((Ddns.updateCloudflareRecord pfx zoneId recordId
        (env.tokenParam k) (env.dnsResp k) pub)).1) 3 1 none
      (by omega) hdnsop
    rw [show List.range' 1 3 = [1, 2, 3] from rfl] at hdns
    simp only [List.map_cons, List.map_nil] at hdns
    rw [ht1, ht2, ht3] at hdns
    simp only [Ddns.updateCloudflareRecord_fx] at hdns
    norm_num at hdns
    have hipfirst : (fun k => Ddns.getInstancePublicIp (env.ipResp k) iid) 1 =
        (Except.ok pub, [Effect.ec2Describe iid]) := by
      show Ddns.getInstancePublicIp (env.ipResp 1) iid = _
      rw [hip1]
      rfl
    have hipwr : withRetry
        (fun k => Ddns.getInstancePublicIp (env.ipResp k) iid) 5 2000 =
        (Except.ok pub, [Effect.ec2Describe iid], 1) :=
      withRetryGo_ok_first _ 2000 1 4 none pub [Effect.ec2Describe iid]
        hipfirst
    have hwr2 : withRetry
        (fun k => Ddns.updateCloudflareRecord pfx zoneId recordId
          (env.tokenParam k) (env.dnsResp k) pub) 3 1000 =
        (Except.error (asError (errOf ((Ddns.updateCloudflareRecord pfx
            zoneId recordId (some t3) (env.dnsResp 3) pub)).1)),
         [Effect.ssmGet (pfx ++ "/cloudflare-token"),
          Effect.fetchPatch ("https://api.cloudflare.com/client/v4/zones/"
            ++ zoneId ++ "/dns_records/" ++ recordId) pub,
          Effect.sleep 1000,
          Effect.ssmGet (pfx ++ "/cloudflare-token"),
          Effect.fetchPatch ("https://api.cloudflare.com/client/v4/zones/"
            ++ zoneId ++ "/dns_records/" ++ recordId) pub,
          Effect.sleep 2000,
          Effect.ssmGet (pfx ++ "/cloudflare-token"),
          Effect.fetchPatch ("https://api.cloudflare.com/client/v4/zones/"
            ++ zoneId ++ "/dns_records/" ++ recordId) pub],
         3) := hdns
    have hh : Ddns.handler pfx zoneId recordId iid "running" env =
        (Except.error (asError (errOf ((Ddns.updateCloudflareRecord pfx
            zoneId recordId (some t3) (env.dnsResp 3) pub)).1)),
         Effect.ssmGet (pfx ++ "/instance-id") :: Effect.ec2Describe iid ::
         [Effect.ssmGet (pfx ++ "/cloudflare-token"),
          Effect.fetchPatch ("https://api.cloudflare.com/client/v4/zones/"
            ++ zoneId ++ "/dns_records/" ++ recordId) pub,
          Effect.sleep 1000,
          Effect.ssmGet (pfx ++ "/cloudflare-token"),
          Effect.fetchPatch ("https://api.cloudflare.com/client/v4/zones/"
            ++ zoneId ++ "/dns_records/" ++ recordId) pub,
          Effect.sleep 2000,
          Effect.ssmGet (pfx ++ "/cloudflare-token"),
          Effect.fetchPatch ("https://api.cloudflare.com/client/v4/zones/"
            ++ zoneId ++ "/dns_records/" ++ recordId) pub]) := by
      simp only [Ddns.handler, hst, hipwr, hwr2]
      norm_num
    have hex : ∃ e3, (Ddns.updateCloudflareRecord pfx zoneId recordId
        (some t3) (env.dnsResp 3) pub).1 = Except.error e3 :=
      Ddns.updateCloudflareRecord_isError pfx zoneId recordId pub
        (some t3) (env.dnsResp 3) (hfail 3 (by omega) (by omega))
    refine ⟨errOf ((Ddns.updateCloudflareRecord pfx zoneId recordId
      (some t3) (env.dnsResp 3) pub)).1, ?_, ?_, ?_⟩
    · rw [ht3]
      exact errOf_eq _ hex
    · rw [hh]
      obtain ⟨e3, he3⟩ := hex
      have hshape : ∃ m, e3 = Thrown.err m := by
        rcases hfail 3 (by omega) (by omega) with h | h
        · rw [show (Ddns.updateCloudflareRecord pfx zoneId recordId
              (some t3) (env.dnsResp 3) pub).1 =
              Except.error (Thrown.err ("Cloudflare API error: "
                ++ toString (env.dnsResp 3).status ++ " - "
                ++ (env.dnsResp 3).bodyText)) from by
            simp only [Ddns.updateCloudflareRecord]
            rw [if_pos h]] at he3
          exact ⟨_, (Except.error.inj he3).symm⟩
        · by_cases hok : (env.dnsResp 3).respOk = false
          · rw [show (Ddns.updateCloudflareRecord pfx zoneId recordId
                (some t3) (env.dnsResp 3) pub).1 =
                Except.error (Thrown.err ("Cloudflare API error: "
                  ++ toString (env.dnsResp 3).status ++ " - "
                  ++ (env.dnsResp 3).bodyText)) from by
              simp only [Ddns.updateCloudflareRecord]
              rw [if_pos hok]] at he3
            exact ⟨_, (Except.error.inj he3).symm⟩
          · rw [show (Ddns.updateCloudflareRecord pfx zoneId recordId
                (some t3) (env.dnsResp 3) pub).1 =
                Except.error (Thrown.err ("Cloudflare API failed: "
                  ++ (env.dnsResp 3).errorsJson)) from by
              simp only [Ddns.updateCloudflareRecord]
              rw [if_neg hok, if_pos h]] at he3
            exact ⟨_, (Except.error.inj he3).symm⟩
      obtain ⟨m, hm⟩ := hshape
      rw [he3, hm]
      rfl
    · rw [hh]
      rfl

/-- Witness for C7: an HTTP 500 whose body is `boom` is classified as a
failure and the raised error carries the provider's error payload. -/
theorem cloudflare_update_error_semantics_witness :
    (Ddns.updateCloudflareRecord "/p" "z" "r" (some "tok")
        ⟨false, 500, "boom", true, "[]", ⟨"", "", "", "", 1, false⟩⟩
        "1.2.3.4").1 =
      Except.error (Thrown.err "Cloudflare API error: 500 - boom") :=
  ((cloudflare_update_error_semantics "/p" "z" "r").1 "tok"
    ⟨false, 500, "boom", true, "[]", ⟨"", "", "", "", 1, false⟩⟩
    "1.2.3.4").2.1 rfl
